import Mathlib

set_option autoImplicit false

/-!
Shallow embedding of the MQTT adapter in
`refactor/adapters/mqtt/mqtt.go` (package `mqtt` of TheThingsNetwork/ttn).

Bytes are modelled as `List Nat`.  The error constants the file uses
(`ErrInvalidStructure`, `ErrFailedOperation`, `ErrWrongBehavior`, imported
from the core errors package) are modelled as an inductive kind.  The
outcome of the external collaborators (the capability type test on a
recipient, the MQTT subscribe and publish tokens, and the arrival of a
downlink message within the 2-second window) is captured per recipient in
a `RecipientBehavior` record, and `Send` is embedded as a function of the
marshalling result and of that per-recipient behaviour.
-/

namespace Mqtt

/-- Error constants used by `mqtt.go` via the dot-import of the core
errors package. -/
inductive ErrKind where
  | ErrInvalidStructure
  | ErrFailedOperation
  | ErrWrongBehavior
deriving DecidableEq, Repr

/-- Raw binary data (`[]byte` in Go). -/
def Bytes := List Nat
deriving DecidableEq, Inhabited, Repr

/-- Outcome of the external collaborators for one recipient of `Send`:
whether the runtime type assertion `r.(MqttRecipient)` succeeds, whether
the subscribe token and the publish token succeed, and the first payload
(if any) delivered on the recipient's private `chdown` channel within the
2-second window. -/
structure RecipientBehavior where
  isMqtt : Bool
  subscribeOk : Bool
  publishOk : Bool
  response : Option Bytes
deriving DecidableEq, Repr

/-- Errors one recipient pushes into `cherr` during `Send`
(lines 108-167 of `mqtt.go`): the capability mismatch records
`ErrInvalidStructure`, a failed subscribe records `ErrFailedOperation`
and skips the recipient, and otherwise a failed publish records
`ErrFailedOperation`. -/
def recipientErrors (r : RecipientBehavior) : List ErrKind :=
  if !r.isMqtt then [ErrKind.ErrInvalidStructure]
  else if !r.subscribeOk then [ErrKind.ErrFailedOperation]
  else if !r.publishOk then [ErrKind.ErrFailedOperation]
  else []

/-- Payloads one recipient pushes into `chresp` during `Send`: only a
subscribed recipient has a wait goroutine, and that goroutine forwards at
most the first message received on `chdown` before the timeout. -/
def recipientResponses (r : RecipientBehavior) : List Bytes :=
  if r.isMqtt && r.subscribeOk then r.response.toList else []

/-- Contents of the buffered channel `cherr` once every running task has
finished. -/
def recordedErrors (rs : List RecipientBehavior) : List ErrKind :=
  rs.flatMap recipientErrors

/-- Contents of the buffered channel `chresp` once every running task has
finished. -/
def collectedResponses (rs : List RecipientBehavior) : List Bytes :=
  rs.flatMap recipientResponses

/-- `Send` executes `wg.Add(2 * nb)` up front (line 106) and each of the
two goroutines spawned for a recipient that passes both the capability
check and the subscribe runs `wg.Done` once; the skip paths
(lines 108-129) spawn no goroutine and call no `wg.Done`.  This is the
value of the WaitGroup counter once every spawned goroutine has
finished. -/
def wgRemaining (rs : List RecipientBehavior) : Nat :=
  2 * rs.length - 2 * rs.countP (fun r => r.isMqtt && r.subscribeOk)

/-- The aggregation step of `Send` (lines 176-192 of `mqtt.go`), applied
to the number of recorded errors and to the collected responses after the
channels are closed. -/
def aggregate (errored : Nat) (resps : List Bytes) : Except ErrKind Bytes :=
  if 1 < resps.length then Except.error ErrKind.ErrWrongBehavior
  else if resps.length = 0 && errored != 0 then
    Except.error ErrKind.ErrFailedOperation
  else if resps.length = 0 && errored = 0 then
    Except.error ErrKind.ErrWrongBehavior
  else Except.ok resps.headI

/-- `Send` as a function of the marshalling result and of the
per-recipient behaviour.  `none` means the call never returns:
`wg.Wait()` (line 171) only returns when the WaitGroup counter reaches
zero. -/
def send (marshalled : Except Unit Bytes) (rs : List RecipientBehavior) :
    Option (Except ErrKind Bytes) :=
  match marshalled with
  | Except.error _ => some (Except.error ErrKind.ErrInvalidStructure)
  | Except.ok _ =>
    if wgRemaining rs = 0 then
      some (aggregate (recordedErrors rs).length (collectedResponses rs))
    else none

/-!
Event-trace model of the per-recipient control flow of `Send`
(lines 108-167 of `mqtt.go`).  The loop body handles one recipient: the
capability check and the subscribe run in the loop goroutine; on success
two goroutines are spawned, one publishing (lines 132-144) and one
waiting on `chdown` with the deferred unsubscribe (lines 147-166); those
two interleave arbitrarily.
-/

/-- Events of one recipient's processing. -/
inductive Ev where
  | subAttempt
  | subDone (ok : Bool)
  | pubAttempt
  | pubDone (ok : Bool)
  | msgRecv (m : Bytes)
  | respForwarded (m : Bytes)
  | timeoutFired
  | unsub
  | errRecorded (k : ErrKind)
deriving DecidableEq, Repr

/-- `Interleave xs ys zs`: `zs` is an arbitrary interleaving of `xs` and
`ys` (each keeping its own order), as two concurrent goroutines produce. -/
inductive Interleave {α : Type} : List α → List α → List α → Prop where
  | nil : Interleave [] [] []
  | left {x : α} {xs ys zs : List α} :
      Interleave xs ys zs → Interleave (x :: xs) ys (x :: zs)
  | right {y : α} {xs ys zs : List α} :
      Interleave xs ys zs → Interleave xs (y :: ys) (y :: zs)

/-- Events of the publish goroutine (lines 132-144): publish the data on
the up topic; a failed token records `ErrFailedOperation`. -/
def pubTask (r : RecipientBehavior) : List Ev :=
  if r.publishOk then [Ev.pubAttempt, Ev.pubDone true]
  else [Ev.pubAttempt, Ev.pubDone false, Ev.errRecorded ErrKind.ErrFailedOperation]

/-- Events of the wait goroutine (lines 147-166): a `select` races the
first `chdown` message against the 2-second timer, forwarding the message
into `chresp` if one arrives; the deferred unsubscribe then runs on
either exit path. -/
def waitTask (r : RecipientBehavior) : List Ev :=
  match r.response with
  | some m => [Ev.msgRecv m, Ev.respForwarded m, Ev.unsub]
  | none => [Ev.timeoutFired, Ev.unsub]

/-- Admissible event traces of one recipient of `Send`: the capability
mismatch records an error and stops; a failed subscribe records an error
and stops; otherwise the subscribe completes and the publish and wait
goroutines interleave. -/
inductive RecipientTrace : RecipientBehavior → List Ev → Prop where
  | notMqtt {r : RecipientBehavior} : r.isMqtt = false →
      RecipientTrace r [Ev.errRecorded ErrKind.ErrInvalidStructure]
  | subFail {r : RecipientBehavior} : r.isMqtt = true → r.subscribeOk = false →
      RecipientTrace r
        [Ev.subAttempt, Ev.subDone false, Ev.errRecorded ErrKind.ErrFailedOperation]
  | subOk {r : RecipientBehavior} {rest : List Ev} : r.isMqtt = true →
      r.subscribeOk = true → Interleave (pubTask r) (waitTask r) rest →
      RecipientTrace r (Ev.subAttempt :: Ev.subDone true :: rest)

/-- Call-level events of `Send`: the single `p.MarshalBinary()` call
(line 93) and the per-recipient network events, tagged with the index of
the recipient they belong to. -/
inductive SendEv where
  | marshalCall
  | net (i : Nat) (e : Ev)
deriving DecidableEq, Repr

/-- Admissible interleavings of the traces of the recipients numbered
from `i` on. -/
inductive RecipientsTrace : Nat → List RecipientBehavior → List SendEv → Prop where
  | nil {i : Nat} : RecipientsTrace i [] []
  | cons {i : Nat} {r : RecipientBehavior} {rs : List RecipientBehavior}
      {t : List Ev} {ts u : List SendEv} :
      RecipientTrace r t → RecipientsTrace (i + 1) rs ts →
      Interleave (t.map (SendEv.net i)) ts u →
      RecipientsTrace i (r :: rs) u

/-- Admissible call-level traces of `Send`: marshalling happens first and
exactly once; on marshalling failure the call returns before the loop, so
nothing else happens; otherwise the recipients' events follow. -/
inductive SendTrace : Except Unit Bytes → List RecipientBehavior → List SendEv → Prop where
  | marshalFail {rs : List RecipientBehavior} :
      SendTrace (Except.error ()) rs [SendEv.marshalCall]
  | marshalOk {data : Bytes} {rs : List RecipientBehavior} {t : List SendEv} :
      RecipientsTrace 0 rs t →
      SendTrace (Except.ok data) rs (SendEv.marshalCall :: t)

/-!
Channel model.  A Go channel has a fixed capacity and a FIFO buffer; a
send on it completes immediately when the buffer has room, completes by
direct handoff when a receiver is already waiting, and otherwise blocks.
`NewAdapter` (lines 60-69) builds both funnel channels with `make` and no
capacity argument, so their capacity is zero.
-/

/-- A Go channel: fixed capacity, FIFO buffer. -/
structure GoChan (α : Type) where
  capacity : Nat
  buffer : List α
deriving Repr

/-- Whether a send on the channel blocks: it does exactly when no
receiver is waiting and the buffer is full (for a zero-capacity channel
the buffer is always full). -/
def GoChan.sendBlocks {α : Type} (c : GoChan α) (receiverWaiting : Bool) : Bool :=
  !receiverWaiting && decide (c.capacity ≤ c.buffer.length)

/-- A buffered send with no receiver around: `none` when it would block. -/
def GoChan.bufSend {α : Type} (c : GoChan α) (a : α) : Option (GoChan α) :=
  if c.buffer.length < c.capacity then some ⟨c.capacity, c.buffer ++ [a]⟩
  else none

/-- Iterated buffered sends; `none` as soon as one would block. -/
def GoChan.bufSendAll {α : Type} (c : GoChan α) : List α → Option (GoChan α)
  | [] => some c
  | a :: as_ =>
    match c.bufSend a with
    | some c1 => c1.bufSendAll as_
    | none => none

/-!
Inbound funnel (`Next`, `NextRegistration`, lines 196-204).  A response
channel is identified by a number; `PktReq` and the `mqttAckNacker`
wrapper carry that identity.
-/

/-- `PktReq` (lines 37-40): a parsed packet and its response channel. -/
structure PktReq where
  Packet : Bytes
  Chresp : Nat
deriving DecidableEq, Repr

/-- `RegReq` (lines 43-46): an opaque registration (modelled as `Unit`)
and its response channel. -/
structure RegReq where
  Registration : Unit
  Chresp : Nat
deriving DecidableEq, Repr

/-- The `mqttAckNacker` built by `Next` (line 198), bound to the
request's response channel. -/
structure MqttAckNacker where
  Chresp : Nat
deriving DecidableEq, Repr

/-- `Next` (lines 196-199) over the state of the `packets` channel:
receiving from the channel blocks (`none`) until a request is buffered,
then pops the oldest request and returns its packet, an acknowledgement
handle bound to that request's response channel, and a nil error. -/
def Next (packets : List PktReq) :
    Option ((Bytes × MqttAckNacker × Option ErrKind) × List PktReq) :=
  match packets with
  | [] => none
  | p :: rest => some ((p.Packet, ⟨p.Chresp⟩, none), rest)

/-- Repeatedly call `Next` until it blocks, listing the packet and the
acknowledgement channel of every delivered request in delivery order. -/
def drainNext : List PktReq → List (Bytes × Nat)
  | [] => []
  | p :: rest =>
    match Next (p :: rest) with
    | some (out, _) => (out.1, out.2.1.Chresp) :: drainNext rest
    | none => []

/-- `NextRegistration` (lines 202-204): whatever the state of the
`registrations` channel, it returns `(nil, nil, nil)` without touching
it. -/
def NextRegistration (_registrations : List RegReq) :
    Option Unit × Option MqttAckNacker × Option ErrKind :=
  (none, none, none)

/-- The `packets` channel as built by `NewAdapter` (line 64):
`make(chan PktReq)` carries no capacity argument, so the channel is
unbuffered (capacity zero); it starts empty. -/
def adapterPackets : GoChan PktReq := ⟨0, []⟩

/-- The `registrations` channel as built by `NewAdapter` (line 65):
`make(chan RegReq)`, likewise unbuffered and empty. -/
def adapterRegistrations : GoChan RegReq := ⟨0, []⟩

/-! Helper lemmas. -/

theorem Interleave.mem_or {α : Type} {xs ys zs : List α} (h : Interleave xs ys zs)
    {z : α} (hz : z ∈ zs) : z ∈ xs ∨ z ∈ ys := by
  induction h with
  | nil => cases hz
  | left h ih =>
    rcases List.mem_cons.mp hz with hz1 | hz2
    · exact Or.inl (hz1 ▸ List.mem_cons_self _ _)
    · rcases ih hz2 with h1 | h2
      · exact Or.inl (List.mem_cons_of_mem _ h1)
      · exact Or.inr h2
  | right h ih =>
    rcases List.mem_cons.mp hz with hz1 | hz2
    · exact Or.inr (hz1 ▸ List.mem_cons_self _ _)
    · rcases ih hz2 with h1 | h2
      · exact Or.inl h1
      · exact Or.inr (List.mem_cons_of_mem _ h2)

theorem Interleave.count_eq {α : Type} [DecidableEq α] {xs ys zs : List α}
    (h : Interleave xs ys zs) (a : α) :
    zs.count a = xs.count a + ys.count a := by
  induction h with
  | nil => simp
  | left h ih => simp only [List.count_cons, ih]; omega
  | right h ih => simp only [List.count_cons, ih]; omega

theorem Interleave.countP_eq {α : Type} (p : α → Bool) {xs ys zs : List α}
    (h : Interleave xs ys zs) :
    zs.countP p = xs.countP p + ys.countP p := by
  induction h with
  | nil => simp
  | left h ih => simp only [List.countP_cons, ih]; omega
  | right h ih => simp only [List.countP_cons, ih]; omega

theorem interleave_concat {α : Type} (xs ys : List α) : Interleave xs ys (xs ++ ys) := by
  induction xs with
  | nil =>
    induction ys with
    | nil => exact Interleave.nil
    | cons y ys ih => exact Interleave.right ih
  | cons x xs ih => exact Interleave.left ih

theorem length_flatMap_le {α β : Type} (f : α → List β)
    (h1 : ∀ a : α, (f a).length ≤ 1) (rs : List α) :
    (rs.flatMap f).length ≤ rs.length := by
  induction rs with
  | nil => simp
  | cons a as_ ih =>
    have := h1 a
    simp only [List.flatMap_cons, List.length_append, List.length_cons]
    omega

theorem bufSendAll_isSome {α : Type} (cap : Nat) (buf xs : List α)
    (h : buf.length + xs.length ≤ cap) :
    (GoChan.bufSendAll ⟨cap, buf⟩ xs).isSome = true := by
  induction xs generalizing buf with
  | nil => simp [GoChan.bufSendAll]
  | cons x xs ih =>
    have hlt : buf.length < cap := by
      simp only [List.length_cons] at h
      omega
    simp only [GoChan.bufSendAll, GoChan.bufSend, if_pos hlt]
    exact ih (buf ++ [x]) (by simp only [List.length_append, List.length_cons,
      List.length_nil] at h ⊢; omega)

/-! The claims. -/

/-- Claim C1: when `Send` returns after all per-recipient tasks finished,
the aggregation yields exactly one outcome — exactly one collected
response is returned as the payload with no error, recorded errors
notwithstanding; two or more responses yield `ErrWrongBehavior`; zero
responses with at least one recorded error yield `ErrFailedOperation`;
zero responses and zero errors yield `ErrWrongBehavior`. -/
theorem send_aggregation_cases {data : Bytes} {rs : List RecipientBehavior}
    {out : Except ErrKind Bytes}
    (h : send (Except.ok data) rs = some out) :
    ((collectedResponses rs).length = 1 →
      out = Except.ok (collectedResponses rs).headI) ∧
    (1 < (collectedResponses rs).length →
      out = Except.error ErrKind.ErrWrongBehavior) ∧
    ((collectedResponses rs).length = 0 → (recordedErrors rs).length ≠ 0 →
      out = Except.error ErrKind.ErrFailedOperation) ∧
    ((collectedResponses rs).length = 0 → (recordedErrors rs).length = 0 →
      out = Except.error ErrKind.ErrWrongBehavior) := by
  simp only [send] at h
  split at h
  · rename_i hwg
    have hout : out = aggregate (recordedErrors rs).length (collectedResponses rs) :=
      (Option.some.inj h).symm
    subst hout
    refine ⟨?_, ?_, ?_, ?_⟩
    · intro h1
      simp [aggregate, h1]
    · intro h1
      simp [aggregate, h1]
    · intro h1 h2
      simp [aggregate, h1, h2]
    · intro h1 h2
      simp [aggregate, h1, h2]
  · cases h

/-- Witness for C1 at a concrete input: one recipient whose publish
failed but whose downlink delivered `[5]`; the single response is
returned even though an error was recorded. -/
theorem send_aggregation_cases_witness :
    (Except.ok ([5] : Bytes) : Except ErrKind Bytes) =
      Except.ok (collectedResponses [⟨true, true, false, some [5]⟩]).headI :=
  (@send_aggregation_cases [] [⟨true, true, false, some [5]⟩]
    (Except.ok [5]) (by rfl)).1 (by rfl)

/-- Claim C2 (code bug): `Send` does not terminate whenever a recipient
is skipped.  `wg.Add(2 * nb)` runs before the loop, but the skip paths —
capability mismatch and subscribe failure — never call `wg.Done`, so the
WaitGroup counter stays positive and `wg.Wait()` blocks forever instead
of reaching the aggregation and returning `ErrFailedOperation`. -/
theorem send_blocks_on_skipped_recipient :
    send (Except.ok ([] : Bytes)) [⟨false, false, false, none⟩] = none ∧
    wgRemaining [⟨false, false, false, none⟩] = 2 ∧
    send (Except.ok ([] : Bytes)) [⟨true, false, false, none⟩] = none ∧
    wgRemaining [⟨true, false, false, none⟩] = 2 :=
  ⟨rfl, rfl, rfl, rfl⟩

/-- Counterexample to C3 as stated: the error recorded for a recipient
failing the capability check is `ErrInvalidStructure` — the very same
error kind `Send` returns for a serialization failure — not a separate
capability-mismatch kind distinct from the invalid-packet kind. -/
theorem invalidRecipient_same_kind_as_invalidPacket :
    recordedErrors [⟨false, false, false, none⟩] = [ErrKind.ErrInvalidStructure] ∧
    send (Except.error ()) [] = some (Except.error ErrKind.ErrInvalidStructure) :=
  ⟨rfl, rfl⟩

/-- Claim C3 as amended: a recipient failing the capability check gets an
`ErrInvalidStructure` error recorded (the same kind as a serialization
failure) and is skipped — its trace holds that single recording and no
subscribe and no publish attempt. -/
theorem invalidRecipient_recorded_and_skipped {r : RecipientBehavior} {t : List Ev}
    (h : RecipientTrace r t) (hm : r.isMqtt = false) :
    recipientErrors r = [ErrKind.ErrInvalidStructure] ∧
    t = [Ev.errRecorded ErrKind.ErrInvalidStructure] ∧
    Ev.subAttempt ∉ t ∧ Ev.pubAttempt ∉ t := by
  cases h with
  | notMqtt h0 =>
    refine ⟨by simp [recipientErrors, hm], rfl, by decide, by decide⟩
  | subFail h0 h1 => rw [hm] at h0; cases h0
  | subOk h0 h1 h2 => rw [hm] at h0; cases h0

/-- Witness for C3's amended theorem at a concrete recipient. -/
theorem invalidRecipient_recorded_and_skipped_witness :
    recipientErrors ⟨false, false, false, none⟩ = [ErrKind.ErrInvalidStructure] :=
  (invalidRecipient_recorded_and_skipped
    (@RecipientTrace.notMqtt ⟨false, false, false, none⟩ rfl) rfl).1

/-- Counterexample to C4 as stated: both funnel channels are built with
capacity zero, and a send into either blocks when no receiver is
waiting — an enqueue is not block-free independently of `Next`. -/
theorem funnel_enqueue_blocks :
    adapterPackets.capacity = 0 ∧ adapterRegistrations.capacity = 0 ∧
    adapterPackets.sendBlocks false = true ∧
    adapterRegistrations.sendBlocks false = true := by decide

/-- Claim C4 as amended: the two funnel channels are unbuffered
(capacity zero) synchronous channels — an enqueue blocks exactly when no
receiver is currently waiting, hence it blocks whenever the consumer is
not blocked receiving. -/
theorem funnel_channels_unbuffered :
    adapterPackets.capacity = 0 ∧ adapterRegistrations.capacity = 0 ∧
    (∀ w : Bool, adapterPackets.sendBlocks w = !w) ∧
    (∀ w : Bool, adapterRegistrations.sendBlocks w = !w) := by
  refine ⟨rfl, rfl, ?_, ?_⟩ <;> intro w <;> cases w <;> rfl

/-- Claim C5: in every admissible trace of a recipient, the subscribe
completes strictly before any publish attempt, and on subscribe failure
an `ErrFailedOperation` is recorded and no publish is attempted. -/
theorem send_subscribe_before_publish {r : RecipientBehavior} {t : List Ev}
    (h : RecipientTrace r t) :
    (Ev.pubAttempt ∈ t →
      List.indexOf (Ev.subDone true) t < List.indexOf Ev.pubAttempt t) ∧
    (r.isMqtt = true → r.subscribeOk = false →
      Ev.errRecorded ErrKind.ErrFailedOperation ∈ t ∧ Ev.pubAttempt ∉ t) := by
  cases h with
  | notMqtt h0 =>
    refine ⟨fun hmem => absurd hmem (by decide), fun h1 _ => ?_⟩
    rw [h0] at h1
    cases h1
  | subFail h0 h1 =>
    exact ⟨fun hmem => absurd hmem (by decide), fun _ _ => ⟨by decide, by decide⟩⟩
  | subOk h0 h1 h2 =>
    refine ⟨fun _ => ?_, fun _ hs => ?_⟩
    · rw [List.indexOf_cons_ne _ (by decide), List.indexOf_cons_self,
        List.indexOf_cons_ne _ (by decide), List.indexOf_cons_ne _ (by decide)]
      omega
    · rw [h1] at hs
      cases hs

/-- Witness for C5 on a concrete full trace: subscribe completion sits at
index 1, before the publish attempt at index 2. -/
theorem subscribe_before_publish_witness :
    List.indexOf (Ev.subDone true) [Ev.subAttempt, Ev.subDone true, Ev.pubAttempt,
      Ev.pubDone true, Ev.timeoutFired, Ev.unsub] <
    List.indexOf Ev.pubAttempt [Ev.subAttempt, Ev.subDone true, Ev.pubAttempt,
      Ev.pubDone true, Ev.timeoutFired, Ev.unsub] :=
  (send_subscribe_before_publish
    (@RecipientTrace.subOk ⟨true, true, true, none⟩ _ rfl rfl
      (interleave_concat _ _))).1 (by decide)

/-- Claim C6: every admissible trace of a recipient that passed the
capability check and the subscribe holds exactly one unsubscribe,
whatever the outcome of the publish and of the wait (first message
forwarded or timeout). -/
theorem unsubscribe_exactly_once {r : RecipientBehavior} {t : List Ev}
    (h : RecipientTrace r t) (hm : r.isMqtt = true) (hs : r.subscribeOk = true) :
    t.count Ev.unsub = 1 := by
  cases h with
  | notMqtt h0 => rw [hm] at h0; cases h0
  | subFail h0 h1 => rw [hs] at h1; cases h1
  | subOk h0 h1 h2 =>
    have hcnt := h2.count_eq Ev.unsub
    have hpub : (pubTask r).count Ev.unsub = 0 := by
      cases hp : r.publishOk <;> simp [pubTask, hp]
    have hwait : (waitTask r).count Ev.unsub = 1 := by
      cases hr : r.response <;> simp [waitTask, hr]
    rw [List.count_cons, List.count_cons, hcnt, hpub, hwait]
    decide

/-- Witness for C6 on a concrete full trace (publish succeeded, wait
timed out): one unsubscribe. -/
theorem unsubscribe_exactly_once_witness :
    List.count Ev.unsub [Ev.subAttempt, Ev.subDone true, Ev.pubAttempt,
      Ev.pubDone true, Ev.timeoutFired, Ev.unsub] = 1 :=
  unsubscribe_exactly_once
    (@RecipientTrace.subOk ⟨true, true, true, none⟩ _ rfl rfl
      (interleave_concat _ _)) rfl rfl

theorem RecipientsTrace.no_marshal {i : Nat} {rs : List RecipientBehavior}
    {u : List SendEv} (h : RecipientsTrace i rs u) : SendEv.marshalCall ∉ u := by
  induction h with
  | nil => simp
  | cons hr hrs hint ih =>
    intro hmem
    rcases hint.mem_or hmem with h1 | h2
    · rcases List.mem_map.mp h1 with ⟨e, _, he⟩
      simp at he
    · exact ih h2

/-- Claim C7: every admissible call-level trace of `Send` holds exactly
one marshalling call, and when marshalling fails `Send` returns the
`ErrInvalidStructure` error immediately and the trace holds nothing
else — no subscribe, publish, or unsubscribe on behalf of any
recipient. -/
theorem marshal_once_no_network_on_failure {m : Except Unit Bytes}
    {rs : List RecipientBehavior} {t : List SendEv}
    (h : SendTrace m rs t) :
    t.count SendEv.marshalCall = 1 ∧
    (m = Except.error () → t = [SendEv.marshalCall] ∧
      send m rs = some (Except.error ErrKind.ErrInvalidStructure)) := by
  cases h with
  | marshalFail => exact ⟨by decide, fun _ => ⟨rfl, rfl⟩⟩
  | marshalOk hrs =>
    refine ⟨?_, fun he => absurd he (by simp)⟩
    have h0 : List.count SendEv.marshalCall _ = 0 :=
      List.count_eq_zero.mpr hrs.no_marshal
    rw [List.count_cons, h0]
    decide

/-- Witness for C7 on the failing-marshal trace: one marshalling call,
nothing else, and the `ErrInvalidStructure` error returned. -/
theorem marshal_once_witness :
    List.count SendEv.marshalCall [SendEv.marshalCall] = 1 ∧
    ([SendEv.marshalCall] : List SendEv) = [SendEv.marshalCall] ∧
    send (Except.error ()) [] = some (Except.error ErrKind.ErrInvalidStructure) :=
  ⟨(marshal_once_no_network_on_failure (@SendTrace.marshalFail [])).1,
    (marshal_once_no_network_on_failure (@SendTrace.marshalFail [])).2 rfl⟩

/-- Claim C8: `Next` blocks while the funnel is empty, and otherwise
returns the oldest request's packet together with an acknowledgement
handle bound to that same request's response channel and a nil error;
draining the funnel delivers the requests in exact arrival order. -/
theorem next_fifo (p : PktReq) (q : List PktReq) :
    Next [] = none ∧
    Next (p :: q) = some ((p.Packet, ⟨p.Chresp⟩, none), q) ∧
    drainNext (p :: q) = (p.Packet, p.Chresp) :: drainNext q ∧
    drainNext q = q.map (fun x => (x.Packet, x.Chresp)) := by
  refine ⟨rfl, rfl, rfl, ?_⟩
  induction q with
  | nil => rfl
  | cons x xs ih => simp only [drainNext, Next, ih, List.map_cons]

/-- Claim C9: `NextRegistration` returns `(nil, nil, nil)` for every
state of the registrations channel, without receiving from it — it never
blocks and never fails. -/
theorem nextRegistration_noop (regs : List RegReq) :
    NextRegistration regs = (none, none, none) := rfl

/-- `true` exactly on the event of forwarding a payload into `chresp`. -/
def isRespForwarded : Ev → Bool
  | Ev.respForwarded _ => true
  | _ => false

theorem recipientErrors_len (r : RecipientBehavior) :
    (recipientErrors r).length ≤ 1 := by
  cases r with
  | mk a b c resp => cases a <;> cases b <;> cases c <;> simp [recipientErrors]

theorem recipientResponses_len (r : RecipientBehavior) :
    (recipientResponses r).length ≤ 1 := by
  cases r with
  | mk a b c resp => cases a <;> cases b <;> cases resp <;> simp [recipientResponses]

theorem recordedErrors_len_le (rs : List RecipientBehavior) :
    (recordedErrors rs).length ≤ rs.length := by
  unfold recordedErrors
  exact length_flatMap_le _ recipientErrors_len rs

theorem collectedResponses_len_le (rs : List RecipientBehavior) :
    (collectedResponses rs).length ≤ rs.length := by
  unfold collectedResponses
  exact length_flatMap_le _ recipientResponses_len rs

theorem respForwarded_le_one {r : RecipientBehavior} {t : List Ev}
    (h : RecipientTrace r t) : t.countP isRespForwarded ≤ 1 := by
  cases h with
  | notMqtt h0 => decide
  | subFail h0 h1 => decide
  | subOk h0 h1 h2 =>
    have hcnt := h2.countP_eq isRespForwarded
    have hpub : (pubTask r).countP isRespForwarded = 0 := by
      cases hp : r.publishOk <;> simp [pubTask, hp, isRespForwarded]
    have hwait : (waitTask r).countP isRespForwarded ≤ 1 := by
      cases hr : r.response <;> simp [waitTask, hr, isRespForwarded]
    simpa [List.countP_cons, isRespForwarded, hcnt, hpub] using hwait

/-- Claim C10: each recipient contributes at most one entry to `cherr`
and at most one to `chresp` (at most the first downlink message is
forwarded); hence the two buffered channels, each of capacity
`len(recipients)`, never receive more than their capacity and no send
into them blocks. -/
theorem per_recipient_single_contribution (rs : List RecipientBehavior) :
    (∀ r ∈ rs, (recipientErrors r).length ≤ 1 ∧ (recipientResponses r).length ≤ 1) ∧
    (recordedErrors rs).length ≤ rs.length ∧
    (collectedResponses rs).length ≤ rs.length ∧
    (GoChan.bufSendAll ⟨rs.length, []⟩ (recordedErrors rs)).isSome = true ∧
    (GoChan.bufSendAll ⟨rs.length, []⟩ (collectedResponses rs)).isSome = true ∧
    (∀ (r : RecipientBehavior) (t : List Ev), RecipientTrace r t →
      t.countP isRespForwarded ≤ 1) :=
  ⟨fun r _ => ⟨recipientErrors_len r, recipientResponses_len r⟩,
    recordedErrors_len_le rs,
    collectedResponses_len_le rs,
    bufSendAll_isSome _ _ _ (by simpa using recordedErrors_len_le rs),
    bufSendAll_isSome _ _ _ (by simpa using collectedResponses_len_le rs),
    fun r t h => respForwarded_le_one h⟩

/-- Witness for C10 at a concrete recipient list. -/
theorem per_recipient_single_contribution_witness :
    (recipientErrors ⟨true, true, false, some [7]⟩).length ≤ 1 :=
  ((per_recipient_single_contribution [⟨true, true, false, some [7]⟩]).1
    ⟨true, true, false, some [7]⟩ (List.mem_singleton.mpr rfl)).1

end Mqtt
